import Mathlib

/-! View-layer logic of the AWX console: status presenter and project list controller.

Shallow embedding of

* `awx/ui/client/src/inventories/manage/groups/factories/get-sync-status-msg.factory.js`
  (`GetSyncStatusMsg`), and
* `awx/ui/client/src/organizations/linkout/controllers/organizations-projects.controller.js`
  (the `ws-jobs` listener, `SCMUpdate`, the `cancelUpdate` chain, the choice
  counter, the guarded listener registrations and the `choicesReadyProjectList`
  listener of `init`).

JavaScript values are embedded as the inductive type `JSVal`. Of the injected
helpers that are not part of these files, `Empty`, `GetProjectIcon`,
`GetProjectToolTip`, `GetBasePath("projects")` and the `sanitize` filter are
parameters of the embedded functions, and `Find` is modelled as a first-match
lookup. A chain of REST calls is embedded as the list of its visible effects,
given the responses to its requests. The scope's event registry is embedded as
the list of its registrations.
-/

namespace Awx

/-! ## JavaScript values -/

/-- A JavaScript value, as far as the embedded code inspects one. Numbers are
integers (ids, HTTP statuses); objects are property lists. -/
inductive JSVal where
  | undefined : JSVal
  | null : JSVal
  | bool (b : Bool) : JSVal
  | num (n : Int) : JSVal
  | str (s : String) : JSVal
  | obj (props : List (String × JSVal)) : JSVal

namespace JSVal

/-- JavaScript truthiness (`if (v)`, `v && ...`). -/
def truthy : JSVal → Bool
  | undefined => false
  | null => false
  | bool b => b
  | num n => n != 0
  | str s => s != ""
  | obj _ => true

/-- The test `v === false`. -/
def isFalse : JSVal → Bool
  | bool false => true
  | _ => false

/-- The test `v === s` for a string literal `s`. -/
def strictEqStr : JSVal → String → Bool
  | str t, s => t == s
  | _, _ => false

/-- Whether a value is the string `s` can be decided. -/
instance decEqStr (v : JSVal) (s : String) : Decidable (v = JSVal.str s) :=
  match v with
  | undefined => Decidable.isFalse (fun h => by cases h)
  | null => Decidable.isFalse (fun h => by cases h)
  | bool _ => Decidable.isFalse (fun h => by cases h)
  | num _ => Decidable.isFalse (fun h => by cases h)
  | obj _ => Decidable.isFalse (fun h => by cases h)
  | str t =>
    if ht : t = s then Decidable.isTrue (by rw [ht])
    else Decidable.isFalse (fun h => ht (JSVal.str.inj h))

end JSVal

/-- Modelled from the spec: the `Empty` helper injected into both source files
is not part of them; the spec calls its argument a "nullable config
descriptor" that is "unconfigured" when `Empty` holds. This instance (no
value: `undefined`, `null` or the empty string) is used only to evaluate the
code at concrete inputs; every general theorem takes `Empty` as a parameter. -/
def EmptyModel : JSVal → Bool
  | .undefined => true
  | .null => true
  | .str s => s == ""
  | _ => false

/-! ## `GetSyncStatusMsg` -/

/-- The `params` object read by `GetSyncStatusMsg`. -/
structure SyncParams where
  status : String
  source : JSVal
  has_inventory_sources : JSVal

/-- The object returned by `GetSyncStatusMsg`. `tooltip` is `none` when
`status_tip` was never assigned (JavaScript `undefined`). -/
structure SyncStatusMsg where
  «class» : String
  tooltip : Option String
  status : String
  launch_class : String
  launch_tip : String
  schedule_tip : String
  deriving DecidableEq, Repr

/-- The local variables of `GetSyncStatusMsg` that the `switch` and the two
`if` statements assign. -/
structure SyncVars where
  stat : String
  stat_class : String
  status_tip : Option String
  launch_class : String
  launch_tip : String
  deriving DecidableEq, Repr

/-- The `switch (status)` statement (lines 15-50), run on the initial values
`stat = status`, `stat_class = stat`, `launch_class = ''`,
`launch_tip = 'Start sync process'`, `status_tip` unassigned. -/
def statusSwitch (status : String) : SyncVars :=
  let v : SyncVars :=
    { stat := status, stat_class := status, status_tip := none,
      launch_class := "", launch_tip := "Start sync process" }
  if status = "never updated" then
    { v with
      stat := "never", stat_class := "na",
      status_tip := some "Sync not performed. Click <i class=\"fa fa-refresh\"></i> to start it now." }
  else if status = "none" ∨ status = "ok" ∨ status = "" then
    { v with
      launch_class := "btn-disabled", stat := "n/a", stat_class := "na",
      status_tip := some "Cloud source not configured. Click <i class=\"fa fa-pencil\"></i> to update.",
      launch_tip := "Cloud source not configured." }
  else if status = "canceled" then
    { v with status_tip := some "Sync canceled. Click to view log." }
  else if status = "failed" then
    { v with status_tip := some "Sync failed. Click to view log." }
  else if status = "successful" then
    { v with status_tip := some "Sync completed. Click to view log." }
  else if status = "pending" then
    { v with
      status_tip := some "Sync pending.", launch_class := "btn-disabled",
      launch_tip := "Sync pending" }
  else if status = "updating" ∨ status = "running" then
    { v with
      launch_class := "btn-disabled", launch_tip := "Sync running",
      status_tip := some "Sync running. Click to view log." }
  else v

/-- The first override (lines 52-57): `has_inventory_sources && Empty(source)`. -/
def parentOverride (Empty : JSVal → Bool) (p : SyncParams) (v : SyncVars) : SyncVars :=
  if p.has_inventory_sources.truthy && Empty p.source then
    { v with
      launch_class := "btn-disabled",
      status_tip := some "Managed by an external cloud source.",
      launch_tip := "Can only be updated by running a sync on the parent group." }
  else v

/-- The second override (lines 59-63):
`has_inventory_sources === false && Empty(source)`. -/
def unconfiguredOverride (Empty : JSVal → Bool) (p : SyncParams) (v : SyncVars) : SyncVars :=
  if p.has_inventory_sources.isFalse && Empty p.source then
    { v with
      launch_class := "btn-disabled",
      status_tip := some "Cloud source not configured. Click <i class=\"fa fa-pencil\"></i> to update.",
      launch_tip := "Cloud source not configured." }
  else v

/-- The function returned by the `GetSyncStatusMsg(Empty)` factory. -/
def GetSyncStatusMsg (Empty : JSVal → Bool) (p : SyncParams) : SyncStatusMsg :=
  let v := unconfiguredOverride Empty p (parentOverride Empty p (statusSwitch p.status))
  { «class» := v.stat_class,
    tooltip := v.status_tip,
    status := v.stat,
    launch_class := v.launch_class,
    launch_tip := v.launch_tip,
    schedule_tip := "Schedule future inventory syncs" }

/-! ## More of the JavaScript value model: property access and string conversion -/

/-- Reading a property: `v.k`. `none` is the `TypeError` JavaScript throws when
`v` is `undefined` or `null`; a property that is absent reads as `undefined`.
(No property read by the embedded code exists on a boolean, number or string.) -/
def JSVal.getProp : JSVal → String → Option JSVal
  | .undefined, _ => none
  | .null, _ => none
  | .obj props, k =>
    match props.find? (fun kv => kv.1 == k) with
    | some kv => some kv.2
    | none => some .undefined
  | _, _ => some .undefined

/-- String conversion as done by `'...' + v`. -/
def JSVal.toStr : JSVal → String
  | .undefined => "undefined"
  | .null => "null"
  | .bool true => "true"
  | .bool false => "false"
  | .num n => toString n
  | .str s => s
  | .obj _ => "[object Object]"

/-! ## The project list controller -/

/-- An entry of `$scope.projects`: the fields of a project that the controller
reads or writes. A derived field is `none` until it is first assigned.
`last_update` is `summary_fields.last_update.status` when
`summary_fields.last_update` is present. -/
structure Project where
  id : Nat
  name : String
  status : String
  scm_type : JSVal
  last_update : Option String
  statusIcon : Option String
  statusTip : Option String
  scm_update_tooltip : Option String
  scm_schedule_tooltip : Option String
  scm_type_class : Option String

/-- The test `project.scm_type === "Manual" || Empty(project.scm_type)`. -/
def Project.unconfigured (Empty : JSVal → Bool) (project : Project) : Bool :=
  project.scm_type.strictEqStr "Manual" || Empty project.scm_type

/-- The test
`project.status === 'updating' || project.status === 'running' || project.status === 'pending'`. -/
def Project.busy (project : Project) : Bool :=
  project.status = "updating" ∨ project.status = "running" ∨ project.status = "pending"

/-- One iteration of the `forEach` callback of `$scope.SCMUpdate` (lines
303-313); `calls` are the `project_id`s passed to `ProjectUpdate` so far. -/
def SCMUpdateStep (Empty : JSVal → Bool) (project_id : Nat) (calls : List Nat)
    (project : Project) : List Nat :=
  if project.id = project_id then
    if project.unconfigured Empty then calls
    else if project.busy then calls
    else calls ++ [project.id]
  else calls

/-- The function `$scope.SCMUpdate(project_id, event)`: the list of
`project_id` arguments of the `ProjectUpdate` calls it makes, in order. (The
tooltip of `event.target` is hidden inside a `try` whose failure is ignored.) -/
def SCMUpdate (Empty : JSVal → Bool) (projects : List Project) (project_id : Nat) : List Nat :=
  projects.foldl (SCMUpdateStep Empty project_id) []

/-- Modelled from the spec: the `Find` helper is not part of the source files;
the spec says "look up the item; if found, update its status field". `Find`
returns the position of the first entry of `list` whose `id` is `val`, or
`none` when there is none. -/
def Find : List Project → Nat → Option Nat
  | [], _ => none
  | project :: rest, val =>
    if project.id = val then some 0 else (Find rest val).map (· + 1)

/-- Replace the entry at position `i` of a list by its image under `f`. -/
def modifyAt (f : Project → Project) : List Project → Nat → List Project
  | [], _ => []
  | project :: rest, 0 => f project :: rest
  | project :: rest, i + 1 => project :: modifyAt f rest i

/-- The payload of a `ws-jobs` push event. -/
structure JobEvent where
  project_id : Nat
  status : String

/-- The assignments of the `ws-jobs` listener to the project it found (lines
121-131). -/
def wsJobsUpdate (GetProjectIcon GetProjectToolTip : String → String) (data : JobEvent)
    (project : Project) : Project :=
  let project :=
    if data.status = "successful" ∨ data.status = "failed" then project
    else
      { project with
        scm_update_tooltip := some "SCM update currently running",
        scm_type_class := some "btn-disabled" }
  { project with
    status := data.status,
    statusIcon := some (GetProjectIcon data.status),
    statusTip := some (GetProjectToolTip data.status) }

/-- The `ws-jobs` listener (lines 111-134) as a function on `$scope.projects`
(`none` when `$scope.projects` is not set). -/
def wsJobs (GetProjectIcon GetProjectToolTip : String → String)
    (projects : Option (List Project)) (data : JobEvent) : Option (List Project) :=
  match projects with
  | none => none
  | some list =>
    match Find list data.project_id with
    | some i => some (modifyAt (wsJobsUpdate GetProjectIcon GetProjectToolTip data) list i)
    | none => some list

/-! ### The choice counter -/

/-- The two `GetChoices` lookups that raise `choicesReadyProjectList`. -/
inductive ChoiceLookup where
  | status
  | scm_type
  deriving DecidableEq, Repr

/-- The `choicesReadyProjectList` listener of lines 153-158, run on the value
of `choiceCount`: the new value, and whether `choicesCompleteProjectList` was
emitted. The listener does not look at which lookup completed. -/
def choicesReady (choiceCount : Nat) (_lookup : ChoiceLookup) : Nat × Bool :=
  let choiceCount := choiceCount + 1
  (choiceCount, decide (choiceCount = 2))

/-- Run the listener over a sequence of events, from a given `choiceCount`:
for each event in order, whether it emitted `choicesCompleteProjectList`. -/
def choicesReadyRun : Nat → List ChoiceLookup → List Bool
  | _, [] => []
  | choiceCount, lookup :: rest =>
    (choicesReady choiceCount lookup).2 :: choicesReadyRun (choicesReady choiceCount lookup).1 rest

/-! ### The `cancelUpdate` chain -/

/-- What a `Rest.get()` or `Rest.post()` call comes back with: the arguments of
its `success` callback, or of its `error` callback. -/
inductive Response where
  | success (data : JSVal)
  | error (data : JSVal) (status : Int)

/-- The responses to the requests of one `cancelUpdate` chain, in the order in
which the chain can issue them: the GET of the project, the GET of its current
update, the GET of the cancel URL, the POST to the cancel URL. A response is
only looked at when its request was issued. -/
structure Responses where
  project : Response
  update : Response
  cancel : Response
  post : Response

/-- What the chain does that is visible outside the controller. -/
inductive Effect where
  /-- A GET request: `Rest.setUrl(url); Rest.get()`. -/
  | get (url : JSVal)
  /-- A POST request: `Rest.setUrl(url); Rest.post()`. -/
  | post (url : JSVal)
  /-- An alert dialog: `Alert(title, body, ...)`. -/
  | alert (title body : String)
  /-- An error notice: `ProcessErrors($scope, data, status, null, { hdr, msg })`. -/
  | processErrors (hdr msg : String)
  /-- A list refresh: `$scope.refresh()`. -/
  | refresh
  /-- The callback threw a `TypeError` (a property read on `undefined` or
  `null`) and ended there. -/
  | typeError

/-- Whether an effect is a network call. -/
def Effect.isRequest : Effect → Bool
  | .get _ => true
  | .post _ => true
  | _ => false

/-- Whether an effect is a POST. -/
def Effect.isPost : Effect → Bool
  | .post _ => true
  | _ => false

/-- Whether an effect is an error notice raised through `ProcessErrors`. -/
def Effect.isProcessErrors : Effect → Bool
  | .processErrors _ _ => true
  | _ => false

/-- The `Cancel_Update` listener (lines 228-239). -/
def Cancel_Update (url : JSVal) (rs : Responses) : List Effect :=
  .post url ::
    match rs.post with
    | .success _ =>
      [.alert "SCM Update Cancel"
          "Your request to cancel the update was submitted to the task manager.",
        .refresh]
    | .error _ status =>
      [.processErrors "Error!"
          ("Call to " ++ url.toStr ++ " failed. POST status: " ++ toString status)]

/-- The `Check_Cancel` listener (lines 244-260); `$scope.$emit('Cancel_Update',
url)` runs the `Cancel_Update` listener. -/
def Check_Cancel (data : JSVal) (rs : Responses) : List Effect :=
  match (data.getProp "related").bind (·.getProp "cancel") with
  | none => [.typeError]
  | some url =>
    .get url ::
      match rs.cancel with
      | .success data =>
        match data.getProp "can_cancel" with
        | none => [.typeError]
        | some can_cancel =>
          if can_cancel.truthy then Cancel_Update url rs
          else
            [.alert "Cancel Not Allowed"
              ("<div>Either you do not have access or the SCM update process completed. " ++
                "Click the <em>Refresh</em> button to view the latest status.</div>")]
      | .error _ status =>
        [.processErrors "Error!"
            ("Call to " ++ url.toStr ++ " failed. GET status: " ++ toString status)]

/-- The function `$scope.cancelUpdate(id, name)` (lines 262-289), with
`projBase` the value of `GetBasePath("projects")` and `sanitize` the
`sanitize` filter; `$scope.$emit('Check_Cancel', data)` runs the `Check_Cancel`
listener. In the `error` callback of the second GET, `data` is that callback's
own first parameter (the body of the error response). -/
def cancelUpdate (projBase : String) (sanitize : String → String) (id : Nat) (name : String)
    (rs : Responses) : List Effect :=
  .get (.str (projBase ++ toString id)) ::
    match rs.project with
    | .success data =>
      match (data.getProp "related").bind (·.getProp "current_update") with
      | none => [.typeError]
      | some current_update =>
        if current_update.truthy then
          .get current_update ::
            match rs.update with
            | .success data => Check_Cancel data rs
            | .error data status =>
              match (data.getProp "related").bind (·.getProp "current_update") with
              | none => [.typeError]
              | some current_update =>
                [.processErrors "Error!"
                    ("Call to " ++ current_update.toStr ++ " failed. GET status: " ++
                      toString status)]
        else
          [.alert "Update Not Found"
            ("<div>An SCM update does not appear to be running for project: " ++ sanitize name ++
              ". Click the <em>Refresh</em> " ++ "button to view the latest status.</div>")]
    | .error _ status =>
      [.processErrors "Error!" ("Call to get project failed. GET status: " ++ toString status)]

/-! ### Guarded listener registration -/

/-- The five guarded registrations of the controller, named by the scope
property that keeps the deregistration function. -/
inductive Guarded where
  | removeChoicesHere
  | removeChoicesReadyList
  | removeGoToJobDetails
  | removeCancelUpdate
  | removeCheckCancel
  deriving DecidableEq, Repr

/-- The event each guarded registration listens to (lines 139, 153, 187, 228,
244). -/
def Guarded.event : Guarded → String
  | .removeChoicesHere => "choicesCompleteProjectList"
  | .removeChoicesReadyList => "choicesReadyProjectList"
  | .removeGoToJobDetails => "GoToJobDetails"
  | .removeCancelUpdate => "Cancel_Update"
  | .removeCheckCancel => "Check_Cancel"

/-- A handler function passed to `$scope.$on`: the one of a guarded
registration, or any other one (the `choicesReadyProjectList` listener of
`init`, the `ws-jobs` listener, ...). -/
inductive Handler where
  | guarded (g : Guarded)
  | other (name : String)
  deriving DecidableEq, Repr

/-- One registration in the scope's registry: `id` tells registrations apart,
also two of the same handler for the same event. -/
structure Listener where
  id : Nat
  event : String
  handler : Handler
  deriving DecidableEq, Repr

/-- Modelled from the spec: the scope's event registry belongs to the
framework, not to the source files; the spec speaks of listeners "registered
through scoped subscription handles". The scope is the list of its
registrations in registration order, the next unused registration id, and for
each guarded registration the value of its `$scope.remove...` property: `none`
while undefined, `some id` for the function that deregisters registration
`id`. -/
structure Scope where
  listeners : List Listener
  nextId : Nat
  remove : Guarded → Option Nat

/-- The call `$scope.$on(event, handler)`: a new registration is added; the
result is the new scope and the id that the returned deregistration function
removes. -/
def Scope.on (scope : Scope) (event : String) (handler : Handler) : Scope × Nat :=
  ({ scope with
      listeners := scope.listeners ++ [{ id := scope.nextId, event := event, handler := handler }],
      nextId := scope.nextId + 1 },
    scope.nextId)

/-- Calling the deregistration function of registration `id`. -/
def Scope.deregister (scope : Scope) (id : Nat) : Scope :=
  { scope with listeners := scope.listeners.filter fun listener => listener.id != id }

/-- The call `$scope.$emit(event)`: the handlers run, in order, one run per
registration for that event. -/
def Scope.emit (scope : Scope) (event : String) : List Handler :=
  (scope.listeners.filter fun listener => listener.event == event).map fun listener =>
    listener.handler

/-- A guarded registration, e.g. lines 225-228:
`if ($scope.removeCancelUpdate) { $scope.removeCancelUpdate(); }`
followed by `$scope.removeCancelUpdate = $scope.$on('Cancel_Update', ...)`. -/
def register (g : Guarded) (scope : Scope) : Scope :=
  let scope :=
    match scope.remove g with
    | some id => scope.deregister id
    | none => scope
  let registered := scope.on g.event (.guarded g)
  { registered.1 with
    remove := fun g' => if g' = g then some registered.2 else registered.1.remove g' }

/-- A sequence of guarded registrations on the same scope, in order. -/
def registerAll (gs : List Guarded) (scope : Scope) : Scope :=
  gs.foldl (fun scope g => register g scope) scope

/-- The state the registry is in however the controller got there: ids in use
are below `nextId`; a guarded registration whose `remove` property is undefined
has no listener; one whose property is set has exactly one listener, the
registration the property deregisters; and a guarded handler listens to its
own event. -/
structure Scope.WellFormed (scope : Scope) : Prop where
  fresh : ∀ listener ∈ scope.listeners, listener.id < scope.nextId
  unset : ∀ g, scope.remove g = none →
    ∀ listener ∈ scope.listeners, listener.handler ≠ .guarded g
  set : ∀ g id, scope.remove g = some id →
    (scope.listeners.countP fun listener => listener.handler == .guarded g) = 1 ∧
      ∀ listener ∈ scope.listeners, (listener.id = id ↔ listener.handler = .guarded g)
  event_of : ∀ listener ∈ scope.listeners, ∀ g,
    listener.handler = .guarded g → listener.event = g.event

/-! ### The `choicesReadyProjectList` listener of `init` -/

/-- An entry of `$scope.project_scm_type_options`: a value of `scm_type` and
its display label. -/
structure ScmTypeOption where
  value : String
  label : String
  deriving DecidableEq, Repr

/-- One iteration of the inner `forEach` (lines 52-63) on the project being
derived. The project read by `type.value === project.scm_type` is the entry
`$scope.projects[i]` that the body assigns to. -/
def scmTypeStep (project : Project) (type : ScmTypeOption) : Project :=
  if project.scm_type.strictEqStr type.value then
    let project := { project with scm_type := .str type.label }
    if type.label = "Manual" then
      { project with
        scm_update_tooltip := some "Manual projects do not require an SCM update",
        scm_schedule_tooltip := some "Manual projects do not require a schedule",
        scm_type_class := some "btn-disabled",
        statusTip := some "Not configured for SCM",
        statusIcon := some "none" }
    else project
  else project

/-- One iteration of the outer `forEach` (lines 36-64): the derivation of the
display fields of one project. -/
def deriveProject (GetProjectIcon GetProjectToolTip : String → String)
    (project_scm_type_options : List ScmTypeOption) (project : Project) : Project :=
  let project :=
    { project with
      statusIcon := some (GetProjectIcon project.status),
      statusTip := some (GetProjectToolTip project.status),
      scm_update_tooltip := some "Start an SCM update",
      scm_schedule_tooltip := some "Schedule future SCM updates",
      scm_type_class := some "" }
  let project :=
    if project.status = "failed" ∧ project.last_update = some "canceled" then
      { project with statusTip := some "Canceled. Click for details" }
    else project
  let project :=
    if project.status = "running" ∨ project.status = "updating" then
      { project with
        scm_update_tooltip := some "SCM update currently running",
        scm_type_class := some "btn-disabled" }
    else project
  project_scm_type_options.foldl scmTypeStep project

/-- The `choicesReadyProjectList` listener registered in `init` (lines 33-66)
as a function on `$scope.projects` (`none` when it is not set). -/
def choicesReadyProjectList (GetProjectIcon GetProjectToolTip : String → String)
    (project_scm_type_options : List ScmTypeOption) (projects : Option (List Project)) :
    Option (List Project) :=
  projects.map fun list =>
    list.map (deriveProject GetProjectIcon GetProjectToolTip project_scm_type_options)

/-- The display fields that the derivation assigns, with `scm_type` as a
string, for comparison. -/
def Project.display (project : Project) :
    String × Option String × Option String × Option String × Option String × Option String :=
  (project.scm_type.toStr, project.statusIcon, project.statusTip, project.scm_update_tooltip,
    project.scm_schedule_tooltip, project.scm_type_class)

/-! ## Concrete inputs -/

/-- A project list of two Git projects: the first idle, the second updating. -/
def demoProjects : List Project :=
  [ { id := 1, name := "docs", status := "successful", scm_type := .str "git",
      last_update := some "successful", statusIcon := some "success",
      statusTip := some "Success! Click for details",
      scm_update_tooltip := some "Start an SCM update",
      scm_schedule_tooltip := some "Schedule future SCM updates",
      scm_type_class := some "" },
    { id := 2, name := "site", status := "running", scm_type := .str "git",
      last_update := some "successful", statusIcon := some "running",
      statusTip := some "Running! Click for details",
      scm_update_tooltip := some "SCM update currently running",
      scm_schedule_tooltip := some "Schedule future SCM updates",
      scm_type_class := some "btn-disabled" } ]

/-- Responses of a chain whose project has no update under way: the project
comes back with an empty `related.current_update`. -/
def noUpdateResponses : Responses :=
  { project := .success (.obj [("id", .num 3), ("related", .obj [("current_update", .null)])]),
    update := .success .undefined,
    cancel := .success .undefined,
    post := .success .undefined }

/-- Responses of a chain whose second request fails: the project names a
current update, and the GET of that update comes back 404 with the body
`{ detail: 'Not found.' }`. -/
def updateGetFailsResponses : Responses :=
  { project :=
      .success (.obj [("id", .num 3),
        ("related", .obj [("current_update", .str "/api/v1/project_updates/7/")])]),
    update := .error (.obj [("detail", .str "Not found.")]) 404,
    cancel := .success .undefined,
    post := .success .undefined }

/-- Responses of a chain whose first request fails with status 404. -/
def projectGetFailsResponses : Responses :=
  { project := .error (.obj [("detail", .str "Not found.")]) 404,
    update := .success .undefined,
    cancel := .success .undefined,
    post := .success .undefined }

/-- The `scm_type` choices as the API lists them: the empty value is labelled
'Manual'. -/
def scmTypeOptions : List ScmTypeOption :=
  [⟨"", "Manual"⟩, ⟨"git", "Git"⟩, ⟨"hg", "Mercurial"⟩, ⟨"svn", "Subversion"⟩]

/-- A project list with one manual project, as loaded: `scm_type` is the empty
string and no display field is assigned yet. -/
def manualProjects : List Project :=
  [ { id := 5, name := "local", status := "ok", scm_type := .str "",
      last_update := none, statusIcon := none, statusTip := none,
      scm_update_tooltip := none, scm_schedule_tooltip := none, scm_type_class := none } ]

/-- The scope of a fresh controller after `init`: only the unguarded
`choicesReadyProjectList` listener is registered. -/
def initScope : Scope :=
  { listeners := [{ id := 0, event := "choicesReadyProjectList", handler := .other "init" }],
    nextId := 1,
    remove := fun _ => none }

end Awx

/-! # Theorems -/

namespace Awx

/-! ## `GetSyncStatusMsg` -/

/-- The label and the state class come from the `switch` alone: neither
override assigns them. -/
theorem GetSyncStatusMsg_label_state (Empty : JSVal → Bool) (p : SyncParams) :
    (GetSyncStatusMsg Empty p).status = (statusSwitch p.status).stat ∧
      (GetSyncStatusMsg Empty p).«class» = (statusSwitch p.status).stat_class := by
  unfold GetSyncStatusMsg unconfiguredOverride parentOverride
  constructor <;> split_ifs <;> rfl

/-- The launch class after the `switch`. -/
theorem statusSwitch_launch_class (status : String) :
    (statusSwitch status).launch_class =
      if status = "none" ∨ status = "ok" ∨ status = "" ∨ status = "pending" ∨
          status = "updating" ∨ status = "running" then "btn-disabled" else "" := by
  unfold statusSwitch
  split_ifs <;> simp_all

/-- The launch class of the descriptor, from the launch class after the
`switch` and the two override tests. -/
theorem GetSyncStatusMsg_launch_class (Empty : JSVal → Bool) (p : SyncParams) :
    (GetSyncStatusMsg Empty p).launch_class =
      if (p.has_inventory_sources.truthy || p.has_inventory_sources.isFalse) && Empty p.source
      then "btn-disabled" else (statusSwitch p.status).launch_class := by
  unfold GetSyncStatusMsg unconfiguredOverride parentOverride
  split_ifs <;> simp_all

/-- Claim C1, counterexample: the invariant as stated fails in both directions.
With status `'none'`, a configured source (`'ec2'`) and `has_inventory_sources`
undefined, none of the three listed conditions holds and yet the action is
disabled; with status `'successful'`, no source (`null`) and
`has_inventory_sources` undefined, no source is configured and yet the action
is enabled. -/
theorem C1_counterexample :
    ((GetSyncStatusMsg EmptyModel ⟨"none", .str "ec2", .undefined⟩).launch_class = "btn-disabled" ∧
        ¬ ("none" = "pending" ∨ "none" = "running" ∨ "none" = "updating" ∨
            EmptyModel (.str "ec2") = true ∨
            (JSVal.truthy .undefined = true ∧ EmptyModel (.str "ec2") = true))) ∧
      ((GetSyncStatusMsg EmptyModel ⟨"successful", .null, .undefined⟩).launch_class = "" ∧
        EmptyModel .null = true) := by
  decide

/-- Claim C1, amended: the action is disabled (`launch_class = 'btn-disabled'`)
exactly when status is one of `'none'`, `'ok'`, `''`, `'pending'`, `'updating'`,
`'running'`, or the source is unconfigured (`Empty(source)`) while
`has_inventory_sources` is truthy or exactly `false`; in every other case it
is enabled (`launch_class = ''`). -/
theorem C1_action_enablement (Empty : JSVal → Bool) (p : SyncParams) :
    (GetSyncStatusMsg Empty p).launch_class =
      if (p.status = "none" ∨ p.status = "ok" ∨ p.status = "" ∨ p.status = "pending" ∨
            p.status = "updating" ∨ p.status = "running") ∨
          (Empty p.source = true ∧
            (p.has_inventory_sources.truthy = true ∨ p.has_inventory_sources.isFalse = true))
      then "btn-disabled" else "" := by
  rw [GetSyncStatusMsg_launch_class, statusSwitch_launch_class]
  split_ifs <;> simp_all

/-- Claim C2: the status table. `'never updated'` gives label `'never'` and
class `'na'`; `'none'`, `'ok'` and `''` give label `'n/a'` and class `'na'`;
every other status gives label and class equal to the raw status; and when
neither override applies (the source is not `Empty`, or
`has_inventory_sources` is neither truthy nor exactly `false`) the launch class
is `'btn-disabled'` exactly for `'none'`, `'ok'`, `''`, `'pending'`,
`'updating'`, `'running'` and `''` for every other status. -/
theorem C2_status_table (Empty : JSVal → Bool) (p : SyncParams) :
    ((GetSyncStatusMsg Empty p).status =
        if p.status = "never updated" then "never"
        else if p.status = "none" ∨ p.status = "ok" ∨ p.status = "" then "n/a"
        else p.status) ∧
      ((GetSyncStatusMsg Empty p).«class» =
        if p.status = "never updated" then "na"
        else if p.status = "none" ∨ p.status = "ok" ∨ p.status = "" then "na"
        else p.status) ∧
      ((Empty p.source = false ∨
          (p.has_inventory_sources.truthy = false ∧ p.has_inventory_sources.isFalse = false)) →
        (GetSyncStatusMsg Empty p).launch_class =
          if p.status = "none" ∨ p.status = "ok" ∨ p.status = "" ∨ p.status = "pending" ∨
              p.status = "updating" ∨ p.status = "running" then "btn-disabled" else "") := by
  refine ⟨?_, ?_, ?_⟩
  · rw [(GetSyncStatusMsg_label_state Empty p).1]
    unfold statusSwitch
    split_ifs <;> simp_all
  · rw [(GetSyncStatusMsg_label_state Empty p).2]
    unfold statusSwitch
    split_ifs <;> simp_all
  · intro h
    rw [GetSyncStatusMsg_launch_class, statusSwitch_launch_class]
    rcases h with h | ⟨h1, h2⟩
    · simp [h]
    · simp [h1, h2]

/-- Claim C3: when `has_inventory_sources` is truthy (in particular `true`) and
the source is unconfigured, the descriptor has launch class `'btn-disabled'`,
tooltip `'Managed by an external cloud source.'` and launch tip
`'Can only be updated by running a sync on the parent group.'` for every
status, and its label and class are those returned for the same status with
any other source and flag (in particular a configured source). -/
theorem C3_parent_override (Empty : JSVal → Bool) (status : String) (source his : JSVal)
    (hparent : his.truthy = true) (hempty : Empty source = true) :
    (GetSyncStatusMsg Empty ⟨status, source, his⟩).launch_class = "btn-disabled" ∧
      (GetSyncStatusMsg Empty ⟨status, source, his⟩).tooltip =
        some "Managed by an external cloud source." ∧
      (GetSyncStatusMsg Empty ⟨status, source, his⟩).launch_tip =
        "Can only be updated by running a sync on the parent group." ∧
      ∀ source' his' : JSVal,
        (GetSyncStatusMsg Empty ⟨status, source, his⟩).status =
            (GetSyncStatusMsg Empty ⟨status, source', his'⟩).status ∧
          (GetSyncStatusMsg Empty ⟨status, source, his⟩).«class» =
            (GetSyncStatusMsg Empty ⟨status, source', his'⟩).«class» := by
  have hnf : his.isFalse = false := by
    cases his <;> simp_all [JSVal.truthy, JSVal.isFalse]
  refine ⟨?_, ?_, ?_, ?_⟩
  · simp [GetSyncStatusMsg, unconfiguredOverride, parentOverride, hparent, hempty, hnf]
  · simp [GetSyncStatusMsg, unconfiguredOverride, parentOverride, hparent, hempty, hnf]
  · simp [GetSyncStatusMsg, unconfiguredOverride, parentOverride, hparent, hempty, hnf]
  · intro source' his'
    have h1 := GetSyncStatusMsg_label_state Empty ⟨status, source, his⟩
    have h2 := GetSyncStatusMsg_label_state Empty ⟨status, source', his'⟩
    exact ⟨h1.1.trans h2.1.symm, h1.2.trans h2.2.symm⟩

/-- Claim C3 at status `'successful'`, source `null`, flag `true`. -/
theorem C3_parent_override_witness :
    (GetSyncStatusMsg EmptyModel ⟨"successful", .null, .bool true⟩).launch_class = "btn-disabled" ∧
      (GetSyncStatusMsg EmptyModel ⟨"successful", .null, .bool true⟩).tooltip =
        some "Managed by an external cloud source." ∧
      (GetSyncStatusMsg EmptyModel ⟨"successful", .null, .bool true⟩).launch_tip =
        "Can only be updated by running a sync on the parent group." ∧
      ∀ source' his' : JSVal,
        (GetSyncStatusMsg EmptyModel ⟨"successful", .null, .bool true⟩).status =
            (GetSyncStatusMsg EmptyModel ⟨"successful", source', his'⟩).status ∧
          (GetSyncStatusMsg EmptyModel ⟨"successful", .null, .bool true⟩).«class» =
            (GetSyncStatusMsg EmptyModel ⟨"successful", source', his'⟩).«class» :=
  C3_parent_override EmptyModel "successful" .null (.bool true) rfl rfl

/-- Claim C4, counterexample: with status `'successful'`, no source (`null`)
and `has_inventory_sources` exactly `false`, the label and the state class are
`'successful'`, not `'n/a'` and `'na'`, and the descriptor differs from the one
returned for status `'none'`. -/
theorem C4_counterexample :
    EmptyModel .null = true ∧
      (GetSyncStatusMsg EmptyModel ⟨"successful", .null, .bool false⟩).status = "successful" ∧
      (GetSyncStatusMsg EmptyModel ⟨"successful", .null, .bool false⟩).status ≠ "n/a" ∧
      (GetSyncStatusMsg EmptyModel ⟨"successful", .null, .bool false⟩).«class» ≠ "na" ∧
      GetSyncStatusMsg EmptyModel ⟨"successful", .null, .bool false⟩ ≠
        GetSyncStatusMsg EmptyModel ⟨"none", .null, .bool false⟩ := by
  decide

/-- Claim C4, amended: when `has_inventory_sources` is exactly `false` and the
source is unconfigured, the launch class, the tooltip and the launch tip are
those of rule 2 (`'btn-disabled'` and the two 'Cloud source not configured'
texts) for every status, while the label and the state class stay those the
status alone gives (equal to those returned with any other source and flag). -/
theorem C4_unconfigured_override (Empty : JSVal → Bool) (status : String) (source : JSVal)
    (hempty : Empty source = true) :
    (GetSyncStatusMsg Empty ⟨status, source, .bool false⟩).launch_class = "btn-disabled" ∧
      (GetSyncStatusMsg Empty ⟨status, source, .bool false⟩).tooltip =
        some "Cloud source not configured. Click <i class=\"fa fa-pencil\"></i> to update." ∧
      (GetSyncStatusMsg Empty ⟨status, source, .bool false⟩).launch_tip =
        "Cloud source not configured." ∧
      (GetSyncStatusMsg Empty ⟨status, source, .bool false⟩).launch_class =
        (GetSyncStatusMsg Empty ⟨"none", source, .bool false⟩).launch_class ∧
      (GetSyncStatusMsg Empty ⟨status, source, .bool false⟩).tooltip =
        (GetSyncStatusMsg Empty ⟨"none", source, .bool false⟩).tooltip ∧
      (GetSyncStatusMsg Empty ⟨status, source, .bool false⟩).launch_tip =
        (GetSyncStatusMsg Empty ⟨"none", source, .bool false⟩).launch_tip ∧
      ∀ source' his' : JSVal,
        (GetSyncStatusMsg Empty ⟨status, source, .bool false⟩).status =
            (GetSyncStatusMsg Empty ⟨status, source', his'⟩).status ∧
          (GetSyncStatusMsg Empty ⟨status, source, .bool false⟩).«class» =
            (GetSyncStatusMsg Empty ⟨status, source', his'⟩).«class» := by
  refine ⟨?_, ?_, ?_, ?_, ?_, ?_, ?_⟩
  · simp [GetSyncStatusMsg, unconfiguredOverride, JSVal.isFalse, hempty]
  · simp [GetSyncStatusMsg, unconfiguredOverride, JSVal.isFalse, hempty]
  · simp [GetSyncStatusMsg, unconfiguredOverride, JSVal.isFalse, hempty]
  · simp [GetSyncStatusMsg, unconfiguredOverride, JSVal.isFalse, hempty]
  · simp [GetSyncStatusMsg, unconfiguredOverride, JSVal.isFalse, hempty]
  · simp [GetSyncStatusMsg, unconfiguredOverride, JSVal.isFalse, hempty]
  · intro source' his'
    have h1 := GetSyncStatusMsg_label_state Empty ⟨status, source, .bool false⟩
    have h2 := GetSyncStatusMsg_label_state Empty ⟨status, source', his'⟩
    exact ⟨h1.1.trans h2.1.symm, h1.2.trans h2.2.symm⟩

/-- Claim C4, amended, at status `'successful'` and source `null`. -/
theorem C4_unconfigured_override_witness :
    (GetSyncStatusMsg EmptyModel ⟨"successful", .null, .bool false⟩).launch_class =
        "btn-disabled" ∧
      (GetSyncStatusMsg EmptyModel ⟨"successful", .null, .bool false⟩).tooltip =
        some "Cloud source not configured. Click <i class=\"fa fa-pencil\"></i> to update." :=
  have h := C4_unconfigured_override EmptyModel "successful" .null rfl
  ⟨h.1, h.2.1⟩

/-! ## `SCMUpdate` -/

/-- The `forEach` of `SCMUpdate`, from any list of earlier calls: one more call,
with `project_id`, for each listed project that has this id, a configured
source and no update under way. -/
theorem SCMUpdate_foldl (Empty : JSVal → Bool) (project_id : Nat) (projects : List Project)
    (calls : List Nat) :
    projects.foldl (SCMUpdateStep Empty project_id) calls =
      calls ++ List.replicate
        (projects.countP fun project =>
          decide (project.id = project_id) && !project.unconfigured Empty && !project.busy)
        project_id := by
  induction projects generalizing calls with
  | nil => simp
  | cons project rest ih =>
    rw [List.foldl_cons, ih, List.countP_cons]
    unfold SCMUpdateStep
    by_cases hid : project.id = project_id
    · cases hu : project.unconfigured Empty <;> cases hb : project.busy <;>
        simp [hid, List.replicate_succ]
    · simp [hid]

/-- The test `v === s` holds exactly when `v` is the string `s`. -/
theorem strictEqStr_iff (v : JSVal) (s : String) :
    v.strictEqStr s = true ↔ v = JSVal.str s := by
  cases v <;> simp [JSVal.strictEqStr]

/-- The first guard of `SCMUpdate` (line 304), spelled out. -/
theorem unconfigured_iff (Empty : JSVal → Bool) (project : Project) :
    project.unconfigured Empty = true ↔
      (project.scm_type = JSVal.str "Manual" ∨ Empty project.scm_type = true) := by
  unfold Project.unconfigured
  rw [Bool.or_eq_true, strictEqStr_iff]

/-- The second guard of `SCMUpdate` (line 308), spelled out. -/
theorem busy_iff (project : Project) :
    project.busy = true ↔
      (project.status = "updating" ∨ project.status = "running" ∨
        project.status = "pending") := by
  unfold Project.busy
  simp

/-- Claim C5: `SCMUpdate(project_id)` calls `ProjectUpdate` with `project_id`
once for each listed project that has this id, a configured source (`scm_type`
neither the string `'Manual'` nor `Empty`) and a status other than
`'updating'`, `'running'`, `'pending'`, and makes no other call. So it makes
no call when every listed project with this id has `scm_type` `'Manual'` or
`Empty` or has one of these three statuses, none when no listed project has
this id, and never one with another id. -/
theorem C5_SCMUpdate (Empty : JSVal → Bool) (projects : List Project) (project_id : Nat) :
    SCMUpdate Empty projects project_id =
        List.replicate
          (projects.countP fun project =>
            decide (project.id = project_id) &&
              !(decide (project.scm_type = JSVal.str "Manual") || Empty project.scm_type) &&
              !(decide (project.status = "updating") || decide (project.status = "running") ||
                decide (project.status = "pending")))
          project_id ∧
      ((∀ project ∈ projects, project.id = project_id →
          (project.scm_type = JSVal.str "Manual" ∨ Empty project.scm_type = true) ∨
            (project.status = "updating" ∨ project.status = "running" ∨
              project.status = "pending")) →
        SCMUpdate Empty projects project_id = []) ∧
      ((∀ project ∈ projects, project.id ≠ project_id) →
        SCMUpdate Empty projects project_id = []) ∧
      ∀ call ∈ SCMUpdate Empty projects project_id, call = project_id := by
  have hpred : ∀ project : Project,
      (decide (project.id = project_id) && !project.unconfigured Empty && !project.busy) =
        (decide (project.id = project_id) &&
          !(decide (project.scm_type = JSVal.str "Manual") || Empty project.scm_type) &&
          !(decide (project.status = "updating") || decide (project.status = "running") ||
            decide (project.status = "pending"))) := by
    intro project
    have hu : project.unconfigured Empty =
        (decide (project.scm_type = JSVal.str "Manual") || Empty project.scm_type) := by
      rw [Bool.eq_iff_iff, unconfigured_iff, Bool.or_eq_true, decide_eq_true_iff]
    have hb : project.busy =
        (decide (project.status = "updating") || decide (project.status = "running") ||
          decide (project.status = "pending")) := by
      rw [Bool.eq_iff_iff, busy_iff]
      simp [or_assoc]
    rw [hu, hb]
  have h : SCMUpdate Empty projects project_id =
      List.replicate
        (projects.countP fun project =>
          decide (project.id = project_id) &&
            !(decide (project.scm_type = JSVal.str "Manual") || Empty project.scm_type) &&
            !(decide (project.status = "updating") || decide (project.status = "running") ||
              decide (project.status = "pending")))
        project_id := by
    unfold SCMUpdate
    rw [SCMUpdate_foldl, List.nil_append]
    congr 1
    apply List.countP_congr
    intro project _
    rw [hpred project]
  refine ⟨h, ?_, ?_, ?_⟩
  · intro hall
    rw [h, List.replicate_eq_nil_iff, List.countP_eq_zero]
    intro project hmem
    by_cases hid : project.id = project_id
    · rcases hall project hmem hid with hu | hb
      · rcases hu with hm | he
        · simp [hm]
        · simp [he]
      · rcases hb with h1 | h1 | h1 <;> simp [h1]
    · simp [hid]
  · intro hall
    rw [h, List.replicate_eq_nil_iff, List.countP_eq_zero]
    intro project hmem
    simp [hall project hmem]
  · intro call hcall
    rw [h] at hcall
    exact List.eq_of_mem_replicate hcall

/-! ## The `ws-jobs` listener -/

/-- The helper `Find` finds nothing exactly when no entry has the id. -/
theorem Find_eq_none_iff (list : List Project) (val : Nat) :
    Find list val = none ↔ ∀ project ∈ list, project.id ≠ val := by
  induction list with
  | nil => simp [Find]
  | cons project rest ih =>
    unfold Find
    by_cases hid : project.id = val
    · simp [hid]
    · simp [hid, ih]

/-- The helper `Find` returns position `i` exactly when the entry at `i` has
the id and no earlier entry has it. -/
theorem Find_eq_some_iff (list : List Project) (val i : Nat) :
    Find list val = some i ↔
      (∃ project, list[i]? = some project ∧ project.id = val) ∧
        ∀ j, j < i → ∀ other, list[j]? = some other → other.id ≠ val := by
  induction list generalizing i with
  | nil => simp [Find]
  | cons project rest ih =>
    unfold Find
    by_cases hid : project.id = val
    · rw [if_pos hid]
      constructor
      · intro h
        have hi : i = 0 := by simpa using h.symm
        subst hi
        exact ⟨⟨project, by simp, hid⟩, fun j hj => absurd hj (Nat.not_lt_zero j)⟩
      · rintro ⟨_, hfirst⟩
        cases i with
        | zero => rfl
        | succ k => exact absurd hid (hfirst 0 (Nat.succ_pos k) project (by simp))
    · rw [if_neg hid]
      cases i with
      | zero =>
        constructor
        · intro h
          simp at h
        · rintro ⟨⟨other, hget, hother⟩, _⟩
          simp at hget
          exact absurd (hget ▸ hother) hid
      | succ k =>
        simp only [Option.map_eq_some', Nat.add_right_cancel_iff, exists_eq_right,
          List.getElem?_cons_succ]
        rw [ih k]
        constructor
        · rintro ⟨hex, hfirst⟩
          refine ⟨hex, fun j hj other hget => ?_⟩
          cases j with
          | zero =>
            simp at hget
            exact hget ▸ hid
          | succ m =>
            rw [List.getElem?_cons_succ] at hget
            exact hfirst m (Nat.lt_of_succ_lt_succ hj) other hget
        · rintro ⟨hex, hfirst⟩
          refine ⟨hex, fun j hj other hget => ?_⟩
          exact hfirst (j + 1) (Nat.succ_lt_succ hj) other (by simpa using hget)

/-- The helper `modifyAt` keeps the length. -/
theorem modifyAt_length (f : Project → Project) (list : List Project) (i : Nat) :
    (modifyAt f list i).length = list.length := by
  induction list generalizing i with
  | nil => rfl
  | cons project rest ih =>
    cases i with
    | zero => rfl
    | succ k => simp [modifyAt, ih]

/-- The helper `modifyAt` applies `f` at position `i`. -/
theorem modifyAt_getElem?_self (f : Project → Project) (list : List Project) (i : Nat) :
    (modifyAt f list i)[i]? = (list[i]?).map f := by
  induction list generalizing i with
  | nil => simp [modifyAt]
  | cons project rest ih =>
    cases i with
    | zero => simp [modifyAt]
    | succ k => simp [modifyAt, ih]

/-- The helper `modifyAt` leaves every other position as it was. -/
theorem modifyAt_getElem?_of_ne (f : Project → Project) (list : List Project) (i j : Nat)
    (hne : j ≠ i) : (modifyAt f list i)[j]? = list[j]? := by
  induction list generalizing i j with
  | nil => simp [modifyAt]
  | cons project rest ih =>
    cases i with
    | zero =>
      cases j with
      | zero => exact absurd rfl hne
      | succ m => simp [modifyAt]
    | succ k =>
      cases j with
      | zero => simp [modifyAt]
      | succ m =>
        simp only [modifyAt, List.getElem?_cons_succ]
        exact ih k m (fun h => hne (by rw [h]))

/-- The listener, when the entry at position `i` is the first with the event's
project id: the list it leaves is the old one with the listener's assignments
made to that entry. -/
theorem wsJobs_found (GetProjectIcon GetProjectToolTip : String → String)
    (list : List Project) (data : JobEvent) (i : Nat) (project : Project)
    (hget : list[i]? = some project) (hid : project.id = data.project_id)
    (hfirst : ∀ j, j < i → ∀ other, list[j]? = some other → other.id ≠ data.project_id) :
    wsJobs GetProjectIcon GetProjectToolTip (some list) data =
        some (modifyAt (wsJobsUpdate GetProjectIcon GetProjectToolTip data) list i) ∧
      (modifyAt (wsJobsUpdate GetProjectIcon GetProjectToolTip data) list i)[i]? =
        some (wsJobsUpdate GetProjectIcon GetProjectToolTip data project) := by
  have hfind : Find list data.project_id = some i :=
    (Find_eq_some_iff list data.project_id i).2 ⟨⟨project, hget, hid⟩, hfirst⟩
  constructor
  · simp [wsJobs, hfind]
  · rw [modifyAt_getElem?_self, hget]
    rfl

/-- The listener leaves the action class of the project as it was when the new
status is `'successful'` or `'failed'`. -/
theorem wsJobsUpdate_terminal (GetProjectIcon GetProjectToolTip : String → String)
    (data : JobEvent) (project : Project)
    (h : data.status = "successful" ∨ data.status = "failed") :
    (wsJobsUpdate GetProjectIcon GetProjectToolTip data project).scm_type_class =
        project.scm_type_class ∧
      (wsJobsUpdate GetProjectIcon GetProjectToolTip data project).scm_update_tooltip =
        project.scm_update_tooltip := by
  simp [wsJobsUpdate, h]

/-- Claim C8: a `ws-jobs` event `(project_id, status)`. Without a project list
nothing happens. When no listed project has the id the list is unchanged. When
the entry at position `i` is the listed project with that id (the one `Find`
returns: the first, should several entries share the id), the list keeps its
length, that entry gets the event's status, `statusIcon = GetProjectIcon(status)`
and `statusTip = GetProjectToolTip(status)` and keeps its id, and every other
entry is unchanged. -/
theorem C8_wsJobs_frame (GetProjectIcon GetProjectToolTip : String → String)
    (list : List Project) (data : JobEvent) :
    wsJobs GetProjectIcon GetProjectToolTip none data = none ∧
      ((∀ project ∈ list, project.id ≠ data.project_id) →
        wsJobs GetProjectIcon GetProjectToolTip (some list) data = some list) ∧
      ∀ (i : Nat) (project : Project), list[i]? = some project →
        project.id = data.project_id →
        (∀ j, j < i → ∀ other, list[j]? = some other → other.id ≠ data.project_id) →
        ∃ (list' : List Project) (project' : Project),
          wsJobs GetProjectIcon GetProjectToolTip (some list) data = some list' ∧
            list'.length = list.length ∧
            list'[i]? = some project' ∧
            project'.status = data.status ∧
            project'.statusIcon = some (GetProjectIcon data.status) ∧
            project'.statusTip = some (GetProjectToolTip data.status) ∧
            project'.id = project.id ∧
            ∀ j, j ≠ i → list'[j]? = list[j]? := by
  refine ⟨rfl, ?_, ?_⟩
  · intro hall
    have hfind : Find list data.project_id = none :=
      (Find_eq_none_iff list data.project_id).2 hall
    simp [wsJobs, hfind]
  · intro i project hget hid hfirst
    obtain ⟨hrun, hat⟩ :=
      wsJobs_found GetProjectIcon GetProjectToolTip list data i project hget hid hfirst
    refine ⟨_, _, hrun, modifyAt_length _ list i, hat, ?_, ?_, ?_, ?_, ?_⟩
    · simp [wsJobsUpdate]
    · simp [wsJobsUpdate]
    · simp [wsJobsUpdate]
    · unfold wsJobsUpdate
      split_ifs <;> rfl
    · intro j hj
      exact modifyAt_getElem?_of_ne _ list i j hj

/-- Claim C8 on the two-project list, for an event that reports project 2
(at position 1) as `'successful'`. -/
theorem C8_wsJobs_frame_witness :
    ∃ (list' : List Project) (project' : Project),
      wsJobs (fun st => st) (fun st => st) (some demoProjects) ⟨2, "successful"⟩ = some list' ∧
        list'.length = demoProjects.length ∧
        list'[1]? = some project' ∧
        project'.status = "successful" ∧
        project'.statusIcon = some "successful" ∧
        project'.statusTip = some "successful" ∧
        project'.id = 2 ∧
        ∀ j, j ≠ 1 → list'[j]? = demoProjects[j]? :=
  (C8_wsJobs_frame (fun st => st) (fun st => st) demoProjects ⟨2, "successful"⟩).2.2 1
    { id := 2, name := "site", status := "running", scm_type := .str "git",
      last_update := some "successful", statusIcon := some "running",
      statusTip := some "Running! Click for details",
      scm_update_tooltip := some "SCM update currently running",
      scm_schedule_tooltip := some "Schedule future SCM updates",
      scm_type_class := some "btn-disabled" }
    rfl rfl
    (by
      intro j hj other hget
      have hj0 : j = 0 := by omega
      subst hj0
      simp only [demoProjects, List.getElem?_cons_zero, Option.some.injEq] at hget
      subst hget
      decide)

/-- The listener disables the action of the project it found for every new
status other than `'successful'` and `'failed'`, whatever the action state was
before the event. -/
theorem wsJobs_nonterminal_disables (GetProjectIcon GetProjectToolTip : String → String)
    (list : List Project) (data : JobEvent) (i : Nat) (project : Project)
    (hget : list[i]? = some project) (hid : project.id = data.project_id)
    (hfirst : ∀ j, j < i → ∀ other, list[j]? = some other → other.id ≠ data.project_id)
    (hstatus : ¬ (data.status = "successful" ∨ data.status = "failed")) :
    ∃ (list' : List Project) (project' : Project),
      wsJobs GetProjectIcon GetProjectToolTip (some list) data = some list' ∧
        list'[i]? = some project' ∧
        project'.status = data.status ∧
        project'.scm_type_class = some "btn-disabled" ∧
        project'.scm_update_tooltip = some "SCM update currently running" := by
  obtain ⟨hrun, hat⟩ :=
    wsJobs_found GetProjectIcon GetProjectToolTip list data i project hget hid hfirst
  refine ⟨_, _, hrun, hat, ?_, ?_, ?_⟩
  · simp [wsJobsUpdate]
  · simp [wsJobsUpdate, hstatus]
  · simp [wsJobsUpdate, hstatus]

/-- Claim C9, the failing inputs, on the two-project list (both projects have
the configured source `'git'`; project 1 is idle with `scm_type_class = ''`,
project 2 is running with `scm_type_class = 'btn-disabled'`).
An event that reports project 2 as `'successful'` leaves its action disabled,
with the tooltip 'SCM update currently running': the action is not re-enabled.
An event that reports project 1 as `'canceled'` disables its action with the
same tooltip, although `'canceled'` is none of `'pending'`, `'running'`,
`'updating'`. In both cases the derivation of the `choicesReadyProjectList`
listener of `init`, run on the list the event left, gives that project
`scm_type_class = ''` and the tooltip 'Start an SCM update', and `SCMUpdate`
does start an update for it. -/
theorem C9_action_not_rederived :
    ((wsJobs (fun st => st) (fun st => st) (some demoProjects) ⟨2, "successful"⟩).map
          fun list => list.map fun project =>
            (project.id, project.status, project.scm_type_class, project.scm_update_tooltip)) =
        some [(1, "successful", some "", some "Start an SCM update"),
          (2, "successful", some "btn-disabled", some "SCM update currently running")] ∧
      ((wsJobs (fun st => st) (fun st => st) (some demoProjects) ⟨1, "canceled"⟩).map
          fun list => list.map fun project =>
            (project.id, project.status, project.scm_type_class, project.scm_update_tooltip)) =
        some [(1, "canceled", some "btn-disabled", some "SCM update currently running"),
          (2, "running", some "btn-disabled", some "SCM update currently running")] ∧
      ¬ ("canceled" = "pending" ∨ "canceled" = "running" ∨ "canceled" = "updating") ∧
      ((choicesReadyProjectList (fun st => st) (fun st => st) scmTypeOptions
            (wsJobs (fun st => st) (fun st => st) (some demoProjects) ⟨2, "successful"⟩)).map
          fun list => list.map fun project =>
            (project.id, project.status, project.scm_type_class, project.scm_update_tooltip)) =
        some [(1, "successful", some "", some "Start an SCM update"),
          (2, "successful", some "", some "Start an SCM update")] ∧
      ((choicesReadyProjectList (fun st => st) (fun st => st) scmTypeOptions
            (wsJobs (fun st => st) (fun st => st) (some demoProjects) ⟨1, "canceled"⟩)).map
          fun list => list.map fun project =>
            (project.id, project.status, project.scm_type_class, project.scm_update_tooltip)) =
        some [(1, "canceled", some "", some "Start an SCM update"),
          (2, "running", some "btn-disabled", some "SCM update currently running")] ∧
      ((wsJobs (fun st => st) (fun st => st) (some demoProjects) ⟨2, "successful"⟩).map
          fun list => SCMUpdate EmptyModel list 2) = some [2] ∧
      ((wsJobs (fun st => st) (fun st => st) (some demoProjects) ⟨1, "canceled"⟩).map
          fun list => SCMUpdate EmptyModel list 1) = some [1] :=
  ⟨rfl, rfl, by decide, rfl, rfl, rfl, rfl⟩

/-! ## The `cancelUpdate` chain -/

/-- The listener `Cancel_Update` always posts. -/
theorem Cancel_Update_posts (url : JSVal) (rs : Responses) :
    (Cancel_Update url rs).any Effect.isPost = true := by
  simp [Cancel_Update, Effect.isPost]

/-- The listener `Check_Cancel` posts exactly when the update names a cancel
URL and the GET of it succeeds with a truthy `can_cancel`. -/
theorem Check_Cancel_post_iff (data : JSVal) (rs : Responses) :
    (Check_Cancel data rs).any Effect.isPost = true ↔
      ∃ url answer can_cancel,
        (data.getProp "related").bind (·.getProp "cancel") = some url ∧
          rs.cancel = .success answer ∧
          answer.getProp "can_cancel" = some can_cancel ∧
          can_cancel.truthy = true := by
  cases hurl : (data.getProp "related").bind (·.getProp "cancel") with
  | none => simp [Check_Cancel, hurl, Effect.isPost]
  | some url =>
    cases hresp : rs.cancel with
    | error body status => simp [Check_Cancel, hurl, hresp, Effect.isPost]
    | success answer =>
      cases hcc : answer.getProp "can_cancel" with
      | none => simp [Check_Cancel, hurl, hresp, hcc, Effect.isPost]
      | some can_cancel =>
        cases ht : can_cancel.truthy with
        | false => simp [Check_Cancel, hurl, hresp, hcc, ht, Effect.isPost]
        | true => simp [Check_Cancel, hurl, hresp, hcc, ht, Cancel_Update, Effect.isPost]

/-- The cancel POST is issued if and only if the project GET succeeds and
carries a `related.current_update` link, the GET of that update succeeds, and
the GET of its `related.cancel` URL succeeds with `can_cancel` truthy. -/
theorem cancelUpdate_post_iff (projBase : String) (sanitize : String → String) (id : Nat)
    (name : String) (rs : Responses) :
    (cancelUpdate projBase sanitize id name rs).any Effect.isPost = true ↔
      ∃ project current_update update url answer can_cancel,
        rs.project = .success project ∧
          (project.getProp "related").bind (·.getProp "current_update") = some current_update ∧
          current_update.truthy = true ∧
          rs.update = .success update ∧
          (update.getProp "related").bind (·.getProp "cancel") = some url ∧
          rs.cancel = .success answer ∧
          answer.getProp "can_cancel" = some can_cancel ∧
          can_cancel.truthy = true := by
  cases hproj : rs.project with
  | error body status => simp [cancelUpdate, hproj, Effect.isPost]
  | success project =>
    cases hcu : (project.getProp "related").bind (·.getProp "current_update") with
    | none => simp [cancelUpdate, hproj, hcu, Effect.isPost]
    | some current_update =>
      cases ht : current_update.truthy with
      | false => simp [cancelUpdate, hproj, hcu, ht, Effect.isPost]
      | true =>
        cases hupd : rs.update with
        | error body status =>
          cases hbody : (body.getProp "related").bind (·.getProp "current_update") <;>
            simp [cancelUpdate, hproj, hcu, ht, hupd, hbody, Effect.isPost]
        | success update =>
          have hcheck := Check_Cancel_post_iff update rs
          simp only [cancelUpdate, hproj, hcu, ht, hupd, List.any_cons, Effect.isPost,
            Bool.false_or, ite_true, hcheck]
          constructor
          · rintro ⟨url, answer, can_cancel, h1, h2, h3, h4⟩
            exact ⟨project, current_update, update, url, answer, can_cancel,
              rfl, hcu, ht, rfl, h1, h2, h3, h4⟩
          · rintro ⟨project', current_update', update', url, answer, can_cancel, -, -, -, h4,
              h5, h6, h7, h8⟩
            cases h4
            exact ⟨url, answer, can_cancel, h5, h6, h7, h8⟩

/-- When the GET of the cancel URL succeeds with a falsy `can_cancel`, the
'Cancel Not Allowed' alert is shown and nothing is posted. -/
theorem Check_Cancel_not_allowed (data url answer can_cancel : JSVal) (rs : Responses)
    (hurl : (data.getProp "related").bind (·.getProp "cancel") = some url)
    (hresp : rs.cancel = .success answer)
    (hcc : answer.getProp "can_cancel" = some can_cancel) (hfalse : can_cancel.truthy = false) :
    Check_Cancel data rs =
      [.get url,
        .alert "Cancel Not Allowed"
          ("<div>Either you do not have access or the SCM update process completed. " ++
            "Click the <em>Refresh</em> button to view the latest status.</div>")] := by
  simp [Check_Cancel, hurl, hresp, hcc, hfalse]

/-- A failure of the first GET raises an error notice with the HTTP status in
its message, and ends the chain. -/
theorem cancelUpdate_project_get_fails (projBase : String) (sanitize : String → String)
    (id : Nat) (name : String) (rs : Responses) (body : JSVal) (status : Int)
    (h : rs.project = .error body status) :
    cancelUpdate projBase sanitize id name rs =
      [.get (.str (projBase ++ toString id)),
        .processErrors "Error!" ("Call to get project failed. GET status: " ++ toString status)] := by
  simp [cancelUpdate, h]

/-- A failure of the third GET raises an error notice with the HTTP status in
its message, and ends the chain. -/
theorem Check_Cancel_get_fails (data url body : JSVal) (status : Int) (rs : Responses)
    (hurl : (data.getProp "related").bind (·.getProp "cancel") = some url)
    (h : rs.cancel = .error body status) :
    Check_Cancel data rs =
      [.get url,
        .processErrors "Error!"
          ("Call to " ++ url.toStr ++ " failed. GET status: " ++ toString status)] := by
  simp [Check_Cancel, hurl, h]

/-- A failure of the second GET raises no error notice when the body of the
error response has no `related` object: building the message throws. -/
theorem cancelUpdate_update_get_fails (projBase : String) (sanitize : String → String)
    (id : Nat) (name : String) (rs : Responses) (project current_update body : JSVal)
    (status : Int) (hproj : rs.project = .success project)
    (hcu : (project.getProp "related").bind (·.getProp "current_update") = some current_update)
    (ht : current_update.truthy = true) (h : rs.update = .error body status)
    (hbody : (body.getProp "related").bind (·.getProp "current_update") = none) :
    cancelUpdate projBase sanitize id name rs =
      [.get (.str (projBase ++ toString id)), .get current_update, .typeError] := by
  simp [cancelUpdate, hproj, hcu, ht, h, hbody]

/-- Claim C6, the failing input: the project GET succeeds and names the
current update `/api/v1/project_updates/7/`; the GET of that update fails with
status 404 and body `{ detail: 'Not found.' }`. The `error` callback reads
`data.related.current_update` from that body, which throws before
`ProcessErrors` is called: the chain ends with no error notice at all. A
failure of the first GET with the same status and body does raise the notice,
with the status in its message. -/
theorem C6_update_get_failure_raises_no_notice :
    cancelUpdate "/api/v1/projects/" (fun text => text) 3 "site" updateGetFailsResponses =
        [.get (.str "/api/v1/projects/3"), .get (.str "/api/v1/project_updates/7/"),
          .typeError] ∧
      (cancelUpdate "/api/v1/projects/" (fun text => text) 3 "site"
          updateGetFailsResponses).any Effect.isProcessErrors = false ∧
      cancelUpdate "/api/v1/projects/" (fun text => text) 3 "site" projectGetFailsResponses =
        [.get (.str "/api/v1/projects/3"),
          .processErrors "Error!" "Call to get project failed. GET status: 404"] :=
  ⟨rfl, rfl, rfl⟩

/-- Claim C7, counterexample: for a project with no current update,
`cancelUpdate(3, 'site')` does issue a network call, the GET of the project
itself, before it shows the alert. -/
theorem C7_counterexample :
    (cancelUpdate "/api/v1/projects/" (fun text => text) 3 "site" noUpdateResponses).any
        Effect.isRequest = true ∧
      (cancelUpdate "/api/v1/projects/" (fun text => text) 3 "site" noUpdateResponses).head? =
        some (.get (.str "/api/v1/projects/3")) :=
  ⟨rfl, rfl⟩

/-- Claim C7, amended: for every project id and name, when the GET of the
project succeeds and the project has no `related.current_update` link,
`cancelUpdate` issues that one GET and no other network call, and then shows
the 'Update Not Found' alert with the sanitized project name. -/
theorem C7_cancelUpdate_no_update (projBase : String) (sanitize : String → String) (id : Nat)
    (name : String) (rs : Responses) (project current_update : JSVal)
    (hproj : rs.project = .success project)
    (hcu : (project.getProp "related").bind (·.getProp "current_update") = some current_update)
    (hnone : current_update.truthy = false) :
    cancelUpdate projBase sanitize id name rs =
        [.get (.str (projBase ++ toString id)),
          .alert "Update Not Found"
            ("<div>An SCM update does not appear to be running for project: " ++ sanitize name ++
              ". Click the <em>Refresh</em> " ++ "button to view the latest status.</div>")] ∧
      ((cancelUpdate projBase sanitize id name rs).filter Effect.isRequest).length = 1 ∧
      (cancelUpdate projBase sanitize id name rs).any Effect.isPost = false := by
  have h : cancelUpdate projBase sanitize id name rs =
      [.get (.str (projBase ++ toString id)),
        .alert "Update Not Found"
          ("<div>An SCM update does not appear to be running for project: " ++ sanitize name ++
            ". Click the <em>Refresh</em> " ++ "button to view the latest status.</div>")] := by
    simp [cancelUpdate, hproj, hcu, hnone]
  refine ⟨h, ?_, ?_⟩
  · rw [h]
    rfl
  · rw [h]
    rfl

/-- Claim C7, amended, for project 3 named 'site'. -/
theorem C7_cancelUpdate_no_update_witness :
    cancelUpdate "/api/v1/projects/" (fun text => text) 3 "site" noUpdateResponses =
        [.get (.str ("/api/v1/projects/" ++ toString 3)),
          .alert "Update Not Found"
            ("<div>An SCM update does not appear to be running for project: " ++ "site" ++
              ". Click the <em>Refresh</em> " ++ "button to view the latest status.</div>")] ∧
      ((cancelUpdate "/api/v1/projects/" (fun text => text) 3 "site" noUpdateResponses).filter
          Effect.isRequest).length = 1 ∧
      (cancelUpdate "/api/v1/projects/" (fun text => text) 3 "site" noUpdateResponses).any
          Effect.isPost = false :=
  C7_cancelUpdate_no_update "/api/v1/projects/" (fun text => text) 3 "site" noUpdateResponses
    (.obj [("id", .num 3), ("related", .obj [("current_update", .null)])]) .null rfl rfl rfl

/-! ## The choice counter -/

/-- The run of the counting listener keeps one flag per event. -/
theorem choicesReadyRun_length (choiceCount : Nat) (events : List ChoiceLookup) :
    (choicesReadyRun choiceCount events).length = events.length := by
  induction events generalizing choiceCount with
  | nil => rfl
  | cons lookup rest ih => simp [choicesReadyRun, ih]

/-- From any value of the counter, the event at position `i` emits exactly when
it brings the counter to 2. -/
theorem choicesReadyRun_getElem? (choiceCount : Nat) (events : List ChoiceLookup) (i : Nat)
    (hi : i < events.length) :
    (choicesReadyRun choiceCount events)[i]? = some (decide (choiceCount + i + 1 = 2)) := by
  induction events generalizing choiceCount i with
  | nil => simp at hi
  | cons lookup rest ih =>
    cases i with
    | zero => simp [choicesReadyRun, choicesReady]
    | succ k =>
      have hk : k < rest.length := Nat.lt_of_succ_lt_succ hi
      have harith : choiceCount + 1 + k + 1 = choiceCount + (k + 1) + 1 := by omega
      simp only [choicesReadyRun, List.getElem?_cons_succ, choicesReady]
      rw [ih (choiceCount + 1) k hk, harith]

/-- From any value of the counter, the number of emissions over a run. -/
theorem choicesReadyRun_count (choiceCount : Nat) (events : List ChoiceLookup) :
    (choicesReadyRun choiceCount events).count true =
      if choiceCount < 2 ∧ 2 ≤ choiceCount + events.length then 1 else 0 := by
  induction events generalizing choiceCount with
  | nil =>
    simp only [choicesReadyRun, List.count_nil, List.length_nil, Nat.add_zero]
    split_ifs with h
    · omega
    · rfl
  | cons lookup rest ih =>
    have hstep : choicesReadyRun choiceCount (lookup :: rest) =
        decide (choiceCount + 1 = 2) :: choicesReadyRun (choiceCount + 1) rest := rfl
    rw [hstep, List.count_cons, ih, List.length_cons]
    by_cases h2 : choiceCount + 1 = 2
    · have hflag : (decide (choiceCount + 1 = 2) == true) = true := by simp [h2]
      rw [hflag]
      simp only [ite_true]
      split_ifs <;> omega
    · have hflag : (decide (choiceCount + 1 = 2) == true) = false := by simp [h2]
      rw [hflag]
      simp only [Bool.false_eq_true, ite_false, Nat.add_zero]
      split_ifs <;> omega

/-- Claim C10: from a fresh controller (`choiceCount = 0`), over every sequence
of `choicesReadyProjectList` events, whichever lookups raised them and in
whatever order, the event at position `i` (counted from 0) emits
`choicesCompleteProjectList` exactly when `i = 1`: not the first event, the
second one, and no later one; so over a run of at least two events it is
emitted exactly once. -/
theorem C10_choices_complete_once (events : List ChoiceLookup) :
    (choicesReadyRun 0 events).length = events.length ∧
      (∀ i, i < events.length → (choicesReadyRun 0 events)[i]? = some (decide (i = 1))) ∧
      (choicesReadyRun 0 events).count true = if 2 ≤ events.length then 1 else 0 := by
  refine ⟨choicesReadyRun_length 0 events, ?_, ?_⟩
  · intro i hi
    rw [choicesReadyRun_getElem? 0 events i hi]
    congr 1
    simp
  · rw [choicesReadyRun_count]
    simp

end Awx

namespace Awx

/-! ## Guarded listener registration -/

/-- A guarded registration leaves the listeners of the other handlers in
place, drops the ones it registered before and adds one new registration. -/
theorem register_spec (g : Guarded) (scope : Scope) (hwf : scope.WellFormed) :
    (register g scope).listeners =
        scope.listeners.filter (fun listener => listener.handler != .guarded g) ++
          [{ id := scope.nextId, event := g.event, handler := .guarded g }] ∧
      (register g scope).nextId = scope.nextId + 1 ∧
      ∀ g', (register g scope).remove g' =
        if g' = g then some scope.nextId else scope.remove g' := by
  cases hrem : scope.remove g with
  | none =>
    have hkeep : scope.listeners.filter (fun listener => listener.handler != .guarded g) =
        scope.listeners := by
      rw [List.filter_eq_self]
      intro listener hmem
      simpa using hwf.unset g hrem listener hmem
    refine ⟨?_, ?_, ?_⟩
    · simp [register, hrem, Scope.on, hkeep]
    · simp [register, hrem, Scope.on]
    · intro g'
      simp [register, hrem, Scope.on]
  | some id =>
    have hsame : scope.listeners.filter (fun listener => listener.id != id) =
        scope.listeners.filter (fun listener => listener.handler != .guarded g) := by
      apply List.filter_congr
      intro listener hmem
      have hiff := (hwf.set g id hrem).2 listener hmem
      show (listener.id != id) = (listener.handler != Handler.guarded g)
      by_cases hid : listener.id = id
      · have hh : listener.handler = .guarded g := hiff.1 hid
        rw [hid, hh]
        simp
      · have hh : listener.handler ≠ .guarded g := fun h => hid (hiff.2 h)
        rw [bne_iff_ne.mpr hid, bne_iff_ne.mpr hh]
    refine ⟨?_, ?_, ?_⟩
    · simp [register, hrem, Scope.on, Scope.deregister, hsame]
    · simp [register, hrem, Scope.on, Scope.deregister]
    · intro g'
      simp [register, hrem, Scope.on, Scope.deregister]

/-- A listener kept by a guarded registration was registered before and has
another handler. -/
theorem mem_kept_iff (g : Guarded) (scope : Scope) (listener : Listener) :
    listener ∈ scope.listeners.filter (fun listener => listener.handler != .guarded g) ↔
      listener ∈ scope.listeners ∧ listener.handler ≠ .guarded g := by
  rw [List.mem_filter, bne_iff_ne]

/-- A guarded registration keeps the registry well formed. -/
theorem register_wellFormed (g : Guarded) (scope : Scope) (hwf : scope.WellFormed) :
    (register g scope).WellFormed := by
  obtain ⟨hl, hn, hr⟩ := register_spec g scope hwf
  constructor
  · intro listener hmem
    rw [hl] at hmem
    rw [hn]
    rcases List.mem_append.1 hmem with h | h
    · have hlt := hwf.fresh listener ((mem_kept_iff g scope listener).1 h).1
      omega
    · have heq : listener = ⟨scope.nextId, g.event, .guarded g⟩ := by simpa using h
      rw [heq]
      exact Nat.lt_succ_self _
  · intro g' hnone listener hmem
    rw [hr g'] at hnone
    by_cases hg : g' = g
    · rw [if_pos hg] at hnone
      cases hnone
    · rw [if_neg hg] at hnone
      rw [hl] at hmem
      rcases List.mem_append.1 hmem with h | h
      · exact hwf.unset g' hnone listener ((mem_kept_iff g scope listener).1 h).1
      · have heq : listener = ⟨scope.nextId, g.event, .guarded g⟩ := by simpa using h
        rw [heq]
        intro hc
        exact hg (Handler.guarded.inj hc).symm
  · intro g' id hsome
    rw [hr g'] at hsome
    by_cases hg : g' = g
    · rw [if_pos hg] at hsome
      have hid : scope.nextId = id := Option.some.inj hsome
      subst hid
      subst hg
      rw [hl]
      constructor
      · rw [List.countP_append, List.countP_singleton]
        have hzero : (scope.listeners.filter fun listener =>
            listener.handler != Handler.guarded g').countP
              (fun listener => listener.handler == Handler.guarded g') = 0 := by
          rw [List.countP_eq_zero]
          intro listener hmem
          have hne := ((mem_kept_iff g' scope listener).1 hmem).2
          simpa using hne
        rw [hzero]
        simp
      · intro listener hmem
        rcases List.mem_append.1 hmem with h | h
        · obtain ⟨hold, hne⟩ := (mem_kept_iff g' scope listener).1 h
          have hlt := hwf.fresh listener hold
          constructor
          · intro hc
            omega
          · intro hc
            exact absurd hc hne
        · have heq : listener = ⟨scope.nextId, g'.event, .guarded g'⟩ := by simpa using h
          rw [heq]
          simp
    · rw [if_neg hg] at hsome
      obtain ⟨hcount, hiff⟩ := hwf.set g' id hsome
      have hexists : ∃ listener ∈ scope.listeners, listener.handler = .guarded g' := by
        have hpos : 0 < scope.listeners.countP
            (fun listener => listener.handler == Handler.guarded g') := by omega
        obtain ⟨listener, hmem, hp⟩ := List.countP_pos_iff.1 hpos
        exact ⟨listener, hmem, by simpa using hp⟩
      obtain ⟨owner, howner, hhandler⟩ := hexists
      have hidlt : id < scope.nextId := by
        have h1 := (hiff owner howner).2 hhandler
        have h2 := hwf.fresh owner howner
        omega
      rw [hl]
      constructor
      · rw [List.countP_append, List.countP_singleton, List.countP_filter]
        have hsame : scope.listeners.countP
            (fun listener =>
              (listener.handler == Handler.guarded g') &&
                (listener.handler != Handler.guarded g)) =
            scope.listeners.countP (fun listener => listener.handler == Handler.guarded g') := by
          apply List.countP_congr
          intro listener _
          constructor
          · intro h
            simp only [Bool.and_eq_true] at h
            exact h.1
          · intro h
            have hh : listener.handler = .guarded g' := by simpa using h
            simp only [Bool.and_eq_true, bne_iff_ne]
            refine ⟨h, ?_⟩
            rw [hh]
            intro hc
            exact hg (Handler.guarded.inj hc)
        rw [hsame, hcount]
        have hnew : ((Handler.guarded g == Handler.guarded g') = true) = False := by
          simp only [beq_iff_eq, eq_iff_iff, iff_false]
          intro hc
          exact hg (Handler.guarded.inj hc).symm
        simp only [hnew, ite_false]
      · intro listener hmem
        rcases List.mem_append.1 hmem with h | h
        · exact hiff listener ((mem_kept_iff g scope listener).1 h).1
        · have heq : listener = ⟨scope.nextId, g.event, .guarded g⟩ := by simpa using h
          rw [heq]
          constructor
          · intro hc
            simp only at hc
            omega
          · intro hc
            exact absurd (Handler.guarded.inj hc).symm hg
  · intro listener hmem g' hhandler
    rw [hl] at hmem
    rcases List.mem_append.1 hmem with h | h
    · exact hwf.event_of listener ((mem_kept_iff g scope listener).1 h).1 g' hhandler
    · have heq : listener = ⟨scope.nextId, g.event, .guarded g⟩ := by simpa using h
      rw [heq] at hhandler ⊢
      have hgg : g = g' := Handler.guarded.inj hhandler
      rw [hgg]

/-- Any sequence of guarded registrations keeps the registry well formed. -/
theorem registerAll_wellFormed (gs : List Guarded) (scope : Scope) (hwf : scope.WellFormed) :
    (registerAll gs scope).WellFormed := by
  induction gs generalizing scope with
  | nil => exact hwf
  | cons g rest ih => exact ih (register g scope) (register_wellFormed g scope hwf)

/-- After a sequence of guarded registrations, the `remove` property of every
registration made in it is set (and one that was set before stays set). -/
theorem registerAll_remove_isSome (gs : List Guarded) (scope : Scope) (hwf : scope.WellFormed)
    (g : Guarded) (hg : g ∈ gs ∨ (scope.remove g).isSome = true) :
    ((registerAll gs scope).remove g).isSome = true := by
  induction gs generalizing scope with
  | nil =>
    rcases hg with h | h
    · cases h
    · exact h
  | cons g0 rest ih =>
    apply ih (register g0 scope) (register_wellFormed g0 scope hwf)
    have hr := (register_spec g0 scope hwf).2.2 g
    by_cases h0 : g = g0
    · right
      rw [hr, if_pos h0]
      rfl
    · rcases hg with h | h
      · left
        rcases List.mem_cons.1 h with h1 | h1
        · exact absurd h1 h0
        · exact h1
      · right
        rw [hr, if_neg h0]
        exact h

/-- In a well-formed registry, emitting the event of a guarded registration
runs its handler once per registered listener with that handler. -/
theorem emit_count_guarded (scope : Scope) (hwf : scope.WellFormed) (g : Guarded) :
    (scope.emit g.event).count (.guarded g) =
      scope.listeners.countP fun listener => listener.handler == .guarded g := by
  unfold Scope.emit
  rw [List.count_eq_countP, List.countP_map, List.countP_filter]
  apply List.countP_congr
  intro listener hmem
  constructor
  · intro h
    simp only [Function.comp_apply, Bool.and_eq_true] at h
    exact h.1
  · intro h
    have hh : listener.handler = .guarded g := by simpa using h
    have hev := hwf.event_of listener hmem g hh
    simp only [Function.comp_apply, Bool.and_eq_true, beq_iff_eq]
    exact ⟨hh, hev⟩

/-- Claim C11: on a scope whose registry is well formed (a fresh controller's
scope in particular), after any sequence of guarded registrations that
registers `g` at least once, and so after any number `n ≥ 1` of registrations
of `g` alone, exactly one listener with the handler of `g` is registered, and
emitting the event of `g` once runs that handler exactly once. -/
theorem C11_guarded_registration (scope : Scope) (hwf : scope.WellFormed) (g : Guarded) :
    (∀ gs : List Guarded, g ∈ gs →
        ((registerAll gs scope).listeners.countP fun listener =>
            listener.handler == .guarded g) = 1 ∧
          ((registerAll gs scope).emit g.event).count (.guarded g) = 1) ∧
      ∀ n : Nat, 1 ≤ n →
        ((registerAll (List.replicate n g) scope).listeners.countP fun listener =>
            listener.handler == .guarded g) = 1 ∧
          ((registerAll (List.replicate n g) scope).emit g.event).count (.guarded g) = 1 := by
  have hgeneral : ∀ gs : List Guarded, g ∈ gs →
      ((registerAll gs scope).listeners.countP fun listener =>
          listener.handler == .guarded g) = 1 ∧
        ((registerAll gs scope).emit g.event).count (.guarded g) = 1 := by
    intro gs hg
    have hwf' := registerAll_wellFormed gs scope hwf
    have hset := registerAll_remove_isSome gs scope hwf g (Or.inl hg)
    obtain ⟨id, hid⟩ := Option.isSome_iff_exists.1 hset
    have hcount := (hwf'.set g id hid).1
    exact ⟨hcount, by rw [emit_count_guarded _ hwf' g, hcount]⟩
  refine ⟨hgeneral, ?_⟩
  intro n hn
  apply hgeneral
  rw [List.mem_replicate]
  exact ⟨by omega, rfl⟩

/-- The scope of a fresh controller after `init` is well formed. -/
theorem initScope_wellFormed : initScope.WellFormed := by
  constructor
  · intro listener hmem
    have heq : listener = ⟨0, "choicesReadyProjectList", .other "init"⟩ := by
      simpa [initScope] using hmem
    rw [heq]
    exact Nat.zero_lt_one
  · intro g _ listener hmem
    have heq : listener = ⟨0, "choicesReadyProjectList", .other "init"⟩ := by
      simpa [initScope] using hmem
    rw [heq]
    intro hc
    cases hc
  · intro g id hsome
    cases hsome
  · intro listener hmem g hhandler
    have heq : listener = ⟨0, "choicesReadyProjectList", .other "init"⟩ := by
      simpa [initScope] using hmem
    rw [heq] at hhandler
    cases hhandler

/-- Claim C11 on the scope of a fresh controller, where `init` has registered
its own, unguarded `choicesReadyProjectList` listener: after three guarded
registrations of the counting listener, one counting listener is registered and
one `choicesReadyProjectList` event runs it once. -/
theorem C11_guarded_registration_witness :
    ((registerAll (List.replicate 3 Guarded.removeChoicesReadyList) initScope).listeners.countP
        fun listener => listener.handler == .guarded .removeChoicesReadyList) = 1 ∧
      ((registerAll (List.replicate 3 Guarded.removeChoicesReadyList) initScope).emit
        "choicesReadyProjectList").count (.guarded .removeChoicesReadyList) = 1 :=
  (C11_guarded_registration initScope initScope_wellFormed .removeChoicesReadyList).2 3
    (by decide)

/-! ## The `choicesReadyProjectList` listener of `init` -/

/-- Without `scm_type` options the derivation reads only the status and the
last update of a project, which it does not assign: a second run changes
nothing. -/
theorem deriveProject_nil_idempotent (GetProjectIcon GetProjectToolTip : String → String)
    (project : Project) :
    deriveProject GetProjectIcon GetProjectToolTip []
        (deriveProject GetProjectIcon GetProjectToolTip [] project) =
      deriveProject GetProjectIcon GetProjectToolTip [] project := by
  unfold deriveProject
  simp only [List.foldl_nil]
  split_ifs <;> simp_all

/-- Claim C12, the failing input: a manual project (`scm_type` the empty
string, status `'ok'`) and the `scm_type` options of the API. The first run of
the listener replaces `scm_type` by the label `'Manual'` and marks the project
`'btn-disabled'` with `statusIcon` `'none'`. The second run compares the label
`'Manual'` with the option values, finds no match, and leaves the project with
`scm_type_class` `''`, `statusIcon` `GetProjectIcon('ok')` and the tooltips of
a project that can be updated. -/
theorem C12_second_run_loses_manual_marks :
    ((choicesReadyProjectList (fun st => st) (fun st => st) scmTypeOptions
          (some manualProjects)).map fun list => list.map Project.display) =
        some [("Manual", some "none", some "Not configured for SCM",
          some "Manual projects do not require an SCM update",
          some "Manual projects do not require a schedule", some "btn-disabled")] ∧
      ((choicesReadyProjectList (fun st => st) (fun st => st) scmTypeOptions
          (choicesReadyProjectList (fun st => st) (fun st => st) scmTypeOptions
            (some manualProjects))).map fun list => list.map Project.display) =
        some [("Manual", some "ok", some "ok", some "Start an SCM update",
          some "Schedule future SCM updates", some "")] :=
  ⟨rfl, rfl⟩

end Awx
